import Mathlib

/-!
Verification of the gg WebSocket client (gg-ws).

This file gives a shallow embedding, in Lean, of the wire-level WebSocket
engine of the repository and proves (or refutes) the specified properties
against it.  Sources embedded here:

* the frame encoder `WebSocket::Impl::sendFrame` and the frame decoder
  `WebSocket::Impl::readFrame`, together with the dispatch switch and the
  handlers `handleMessage`, `handlePing`, `handlePong`, `handleClose`,
  `handleDisconnect` and the surrounding `ioLoop` exit logic;
* the URL parser `parseUrl` (including the exact `std::stoi` semantics it
  relies on);
* the mutex discipline of `HeartbeatManager::setMode` / `stop`.

Bytes are modelled as `Nat` (the C++ code reads them into `uint8_t`), byte
sequences as `List Nat`.  Randomness (the mask key) is passed explicitly.
Fallible byte-stream reads are modelled by running the decoder on a prefix
of the stream: a short read yields an error result.  C++ exceptions are
modelled by `Option`: a `none` result marks an exception escaping the
modelled function.
-/

namespace GG

/-! ## Arithmetic helpers for the bit manipulations in the codec -/

theorem lor_shift_add (k : Nat) : ∀ x y : Nat, y < 2 ^ k → (x <<< k) ||| y = x * 2 ^ k + y := by
  induction k with
  | zero =>
    intro x y hy
    interval_cases y
    simp [Nat.shiftLeft_eq]
  | succ k ih =>
    intro x y hy
    have hx : x <<< (k + 1) = Nat.bit false (x <<< k) := by
      simp [Nat.bit, Nat.shiftLeft_eq, Nat.pow_succ]
      ring
    have hy2 : y = Nat.bit (y % 2 = 1) (y / 2) := by
      simp [Nat.bit]
      rcases Nat.mod_two_eq_zero_or_one y with h | h <;> simp [h] <;> omega
    rw [hx, hy2, Nat.lor_bit]
    have hlt : y / 2 < 2 ^ k := by
      have := Nat.pow_succ 2 k
      omega
    rw [ih x (y / 2) hlt]
    rcases Nat.mod_two_eq_zero_or_one y with h | h <;>
      simp [Nat.bit, h, Nat.pow_succ] <;> ring_nf

theorem and_255_eq_mod (n : Nat) : n &&& 255 = n % 256 := by
  have := Nat.and_pow_two_sub_one_eq_mod n 8
  norm_num at this
  exact this

theorem and_127_eq_mod (n : Nat) : n &&& 127 = n % 128 := by
  have := Nat.and_pow_two_sub_one_eq_mod n 7
  norm_num at this
  exact this

theorem lor_128 (n : Nat) (h : n < 128) : 128 ||| n = 128 + n := by
  have h1 : (1 <<< 7) ||| n = 1 * 2 ^ 7 + n := lor_shift_add 7 1 n (by omega)
  norm_num at h1
  exact h1

theorem and_128_of_lt (n : Nat) (h : n < 128) : (128 + n) &&& 128 = 128 := by
  have h1 : (128 + n) &&& 2 ^ 7 = ((128 + n).testBit 7).toNat * 2 ^ 7 :=
    Nat.and_two_pow (128 + n) 7
  have h2 : (128 + n).testBit 7 = true := by
    rw [Nat.testBit_to_div_mod]
    have hd : (128 + n) / 2 ^ 7 = 1 := by
      norm_num
      omega
    rw [hd]
    decide
  rw [h2] at h1
  norm_num at h1
  exact h1

/-! ## Constants from part_001 (types.hpp) -/

def Opcode.Continuation : Nat := 0x0

def Opcode.Text : Nat := 0x1

def Opcode.Binary : Nat := 0x2

def Opcode.Close : Nat := 0x8

def Opcode.Ping : Nat := 0x9

def Opcode.Pong : Nat := 0xA

def CloseCode.Normal : Nat := 1000

def CloseCode.NoStatusReceived : Nat := 1005

def CloseCode.AbnormalClosure : Nat := 1006

def CloseCode.MessageTooBig : Nat := 1009

def ErrorCode.MessageTooLarge : Nat := 1008

def ErrorCode.InvalidFrame : Nat := 1009

def ErrorCode.InvalidUrl : Nat := 1004

def ErrorCode.PingTimeout : Nat := 1010

/-! ## Frame codec (part_004, sendFrame lines 687-726, readFrame lines 600-682) -/

/-- Byte-wise XOR masking starting at payload index `j`:
each byte is XORed with `key[index mod 4]`, exactly the loops
`frame.push_back(payload[i] ^ maskKey[i % 4])` (encoder) and
`buffer[i] ^= maskKey[i % 4]` (decoder). -/
def maskFrom (key : List Nat) : Nat → List Nat → List Nat
  | _, [] => []
  | j, b :: rest => (b ^^^ key.getD (j % 4) 0) :: maskFrom key (j + 1) rest

/-- Masking of a whole payload with a 4-byte key. -/
def maskBytes (key payload : List Nat) : List Nat := maskFrom key 0 payload

/-- The length-prefix bytes the encoder pushes after the first header byte:
a single byte `0x80 | size` for sizes below 126, the marker `0x80 | 126`
plus a 16-bit big-endian length up to 65535, and the marker `0x80 | 127`
plus a 64-bit big-endian length otherwise (sendFrame lines 696-708). -/
def lenBytesOf (n : Nat) : List Nat :=
  if n < 126 then [0x80 ||| n]
  else if n ≤ 65535 then [0x80 ||| 126, (n >>> 8) &&& 0xFF, n &&& 0xFF]
  else (0x80 ||| 127) :: ((List.range 8).map fun i => (n >>> ((7 - i) * 8)) &&& 0xFF)

/-- The outbound frame built by `WebSocket::Impl::sendFrame`: header byte
`0x80 | opcode` (FIN always set), the length prefix with the mask bit,
the 4 mask-key bytes (random in the source, passed explicitly here) and
the masked payload. -/
def sendFrame (opcode : Nat) (payload maskKey : List Nat) : List Nat :=
  ((0x80 ||| opcode) :: lenBytesOf payload.length) ++ maskKey ++ maskBytes maskKey payload

/-- An inbound frame as decoded by `readFrame`. -/
structure Frame where
  fin : Bool
  opcode : Nat
  masked : Bool
  payload : List Nat
deriving DecidableEq, Repr

/-- Result of one `readFrame` call: a decoded frame plus the unread rest of
the stream, the MessageTooLarge rejection, or a failed read (EOF or short
read on the transport). -/
inductive DecodeResult where
  | frame (f : Frame) (rest : List Nat)
  | errTooLarge
  | errShortRead
deriving DecidableEq, Repr

/-- Extended-length handling of `readFrame` (lines 613-624): a short length
below 126 is used directly, 126 demands two further big-endian bytes and
127 demands eight. -/
def readExtendedLen (len0 : Nat) (rest : List Nat) : Option (Nat × List Nat) :=
  if len0 = 126 then
    match rest with
    | b0 :: b1 :: r => some ((b0 <<< 8) ||| b1, r)
    | _ => none
  else if len0 = 127 then
    if 8 ≤ rest.length then
      some ((rest.take 8).foldl (fun acc b => (acc <<< 8) ||| b) 0, rest.drop 8)
    else none
  else some (len0, rest)

/-- The frame decoder `WebSocket::Impl::readFrame` run over a byte stream:
parses FIN, opcode, mask bit and payload length from the two header bytes,
the extended length when indicated, rejects payloads above the configured
maximum, reads the 4-byte mask key when the mask bit is set, and unmasks
the payload with the same XOR scheme. -/
def readFrame (maxMessageSize : Nat) (s : List Nat) : DecodeResult :=
  match s with
  | h0 :: h1 :: rest =>
    match readExtendedLen (h1 &&& 0x7F) rest with
    | none => DecodeResult.errShortRead
    | some (payloadLen, r1) =>
      if payloadLen > maxMessageSize then DecodeResult.errTooLarge
      else
        match (if h1 &&& 0x80 != 0 then
                 (if 4 ≤ r1.length then some (r1.take 4, r1.drop 4) else none)
               else some (([0, 0, 0, 0] : List Nat), r1)) with
        | none => DecodeResult.errShortRead
        | some (mk, r2) =>
          if payloadLen ≤ r2.length then
            DecodeResult.frame
              ⟨h0 &&& 0x80 != 0, h0 &&& 0x0F, h1 &&& 0x80 != 0,
               if h1 &&& 0x80 != 0 then maskBytes mk (r2.take payloadLen)
               else r2.take payloadLen⟩
              (r2.drop payloadLen)
          else DecodeResult.errShortRead
  | _ => DecodeResult.errShortRead

/-! ## Configuration, connection state and dispatched events
(part_001 WebSocketConfig / PingConfig, part_004 Impl state and handlers) -/

/-- Heartbeat modes from part_001 (PingMode). -/
inductive PingMode where
  | Disabled
  | Opcode
  | TextMessage
deriving DecidableEq, Repr

/-- The ping-related configuration fields the dispatch path consults. -/
structure PingConfig where
  mode : PingMode
  autoPong : Bool
deriving DecidableEq, Repr

/-- The WebSocketConfig fields the embedded code paths consult. -/
structure WebSocketConfig where
  maxMessageSize : Nat
  autoReconnect : Bool
  maxReconnectAttempts : Nat
  ping : PingConfig
deriving DecidableEq, Repr

/-- Default configuration values from part_001. -/
def defaultConfig : WebSocketConfig :=
  ⟨16 * 1024 * 1024, true, 5, ⟨PingMode.Opcode, true⟩⟩

/-- The two atomic flags of `WebSocket::Impl` that the I/O loop and the
handlers mutate. -/
structure ConnState where
  connected : Bool
  running : Bool
deriving DecidableEq, Repr

/-- Externally observable actions of the dispatch path, in program order:
callback invocations, frame writes through the send path, the reconnect
wait and the reconnect attempt itself. -/
inductive Event where
  | rawMessage (payload : List Nat)
  | structuredMessage (payload : List Nat)
  | pongWrite (payload : List Nat)
  | pingCallback (payload : List Nat)
  | pongCallback (payload : List Nat)
  | heartbeatPong
  | errorCb (code : Nat)
  | disconnectCb (code : Nat)
  | waitSeconds (n : Nat)
  | connectAttempt
  | connectSuccess
deriving DecidableEq, Repr

/-- `handleMessage` (part_004 lines 768-785): the raw callback always fires,
the structured callback additionally fires when the payload parses as JSON
(the JSON parser is abstracted as the predicate argument). -/
def handleMessage (jsonParses : List Nat → Bool) (payload : List Nat) : List Event :=
  [Event.rawMessage payload] ++
    (if jsonParses payload then [Event.structuredMessage payload] else [])

/-- `handlePing` (lines 787-798): when autoPong is set, `sendPongFrame` is
called with the received payload first; `sendPongFrame` (lines 409-414)
writes a Pong frame only while connected.  The ping callback runs after. -/
def handlePing (autoPong connected : Bool) (payload : List Nat) : List Event :=
  (if autoPong then (if connected then [Event.pongWrite payload] else []) else []) ++
    [Event.pingCallback payload]

/-- `handlePong` (lines 800-811): heartbeat notification then the callback. -/
def handlePong (payload : List Nat) : List Event :=
  [Event.heartbeatPong, Event.pongCallback payload]

/-- The status-code extraction of `handleClose` (lines 814-817): big-endian
16-bit code when the payload has at least two bytes, NoStatusReceived
otherwise. -/
def closeCodeOf (payload : List Nat) : Nat :=
  if 2 ≤ payload.length then (payload.getD 0 0 <<< 8) ||| payload.getD 1 0
  else CloseCode.NoStatusReceived

/-- `handleClose` (lines 813-821): the extracted status code is stored in a
local variable that the function never uses again; only the two atomic
flags are cleared.  No callback fires here. -/
def handleClose (payload : List Nat) : ConnState × List Event :=
  let _code := closeCodeOf payload
  (⟨false, false⟩, [])

/-- The opcode switch of `readFrame` (lines 659-679) applied to a decoded
frame: Text and Binary go to `handleMessage` (the FIN bit is not
consulted), Close runs `handleClose` and makes `readFrame` return false,
Ping and Pong run their handlers, and every other opcode falls into the
default branch and is silently skipped.  The returned Bool is the return
value of `readFrame` (false exits the I/O loop). -/
def dispatchFrame (cfg : WebSocketConfig) (jsonParses : List Nat → Bool)
    (st : ConnState) (f : Frame) : ConnState × List Event × Bool :=
  if f.opcode = Opcode.Text ∨ f.opcode = Opcode.Binary then
    (st, handleMessage jsonParses f.payload, true)
  else if f.opcode = Opcode.Close then
    ((handleClose f.payload).1, (handleClose f.payload).2, false)
  else if f.opcode = Opcode.Ping then
    (st, handlePing cfg.ping.autoPong st.connected f.payload, true)
  else if f.opcode = Opcode.Pong then
    (st, handlePong f.payload, true)
  else (st, [], true)

/-- Outcome of running `readFrame` plus its dispatch on the front of the
byte stream: either the loop continues with the rest of the stream, or
`readFrame` returned false and the loop will exit. -/
inductive StepResult where
  | next (st : ConnState) (events : List Event) (rest : List Nat)
  | exit (st : ConnState) (events : List Event)
deriving DecidableEq, Repr

/-- One `readFrame` call as the I/O loop sees it: decode errors exit the
loop (MessageTooLarge fires the error callback first, lines 626-630), a
decoded frame is dispatched per opcode. -/
def processFrameBytes (cfg : WebSocketConfig) (jsonParses : List Nat → Bool)
    (st : ConnState) (s : List Nat) : StepResult :=
  match readFrame cfg.maxMessageSize s with
  | DecodeResult.errShortRead => StepResult.exit st []
  | DecodeResult.errTooLarge => StepResult.exit st [Event.errorCb ErrorCode.MessageTooLarge]
  | DecodeResult.frame f rest =>
    match dispatchFrame cfg jsonParses st f with
    | (st1, evs, true) => StepResult.next st1 evs rest
    | (st1, evs, false) => StepResult.exit st1 evs

/-- `handleDisconnect` (lines 823-839), with the outcome of the inner
`connect()` call abstracted as a Bool: when auto-reconnect is on and
attempts remain, the counter is incremented, the thread sleeps
counter-many seconds and a single `connect()` is attempted.  A successful
`connect()` resets the counter to zero (line 331) and returns; otherwise
the function falls through, clears `running` and fires the disconnect
callback with AbnormalClosure.  Returns the events in order, the new
attempt counter and whether the session is still running. -/
def handleDisconnect (autoReconnect : Bool) (maxAttempts attempts : Nat)
    (connectOutcome : Bool) : List Event × Nat × Bool :=
  if autoReconnect ∧ attempts < maxAttempts then
    if connectOutcome then
      ([Event.waitSeconds (attempts + 1), Event.connectAttempt, Event.connectSuccess], 0, true)
    else
      ([Event.waitSeconds (attempts + 1), Event.connectAttempt,
        Event.disconnectCb CloseCode.AbnormalClosure], attempts + 1, false)
  else ([Event.disconnectCb CloseCode.AbnormalClosure], attempts, false)

/-- One iteration tail of `ioLoop` (lines 571-577): when `readFrame`
returns false the loop calls `handleDisconnect` only if the connected
flag is still set, then breaks.  Returns the final state, the events in
order, the attempt counter and whether the session keeps running. -/
def ioStep (cfg : WebSocketConfig) (jsonParses : List Nat → Bool) (st : ConnState)
    (attempts : Nat) (s : List Nat) (connectOutcome : Bool) :
    ConnState × List Event × Nat × Bool :=
  match processFrameBytes cfg jsonParses st s with
  | StepResult.next st1 evs _ => (st1, evs, attempts, true)
  | StepResult.exit st1 evs =>
    if st1.connected then
      match handleDisconnect cfg.autoReconnect cfg.maxReconnectAttempts attempts
          connectOutcome with
      | (evs2, a2, true) => (⟨true, true⟩, evs ++ evs2, a2, true)
      | (evs2, a2, false) => (⟨false, false⟩, evs ++ evs2, a2, false)
    else (st1, evs, attempts, false)

/-! ## URL parser (part_004 parseUrl, lines 153-201) -/

/-- The result struct of `parseUrl`; default-constructed fields mirror the
C++ defaults (secure false, empty host, port 0, empty path). -/
structure ParsedUrl where
  secure : Bool
  host : List Char
  port : Nat
  path : List Char
deriving DecidableEq, Repr

/-- `ParsedUrl::valid` (line 159): non-empty host and positive port. -/
def urlValid (u : ParsedUrl) : Bool := u.host ≠ [] && u.port > 0

/-- The split of the authority-plus-path at the first slash performed by
`url.find` and the two `substr` calls (lines 180-188): the second
component keeps the slash; a missing slash defaults the path to a single
slash. -/
def splitAtSlash : List Char → List Char × List Char
  | [] => ([], ['/'])
  | c :: rest =>
    if c = '/' then ([], c :: rest)
    else
      let p := splitAtSlash rest
      (c :: p.1, p.2)

/-- The split of host-colon-port at the last colon performed by
`hostPort.rfind` (lines 191-195); `none` when the authority has no colon. -/
def splitAtLastColon : List Char → Option (List Char × List Char)
  | [] => none
  | c :: rest =>
    match splitAtLastColon rest with
    | some p => some (c :: p.1, p.2)
    | none => if c = ':' then some ([], rest) else none

/-- Whitespace characters skipped by `std::stoi` via `strtol`. -/
def isStoiSpace (c : Char) : Bool :=
  c = ' ' || c = '\t' || c = '\n' || c = '\x0b' || c = '\x0c' || c = '\r'

/-- The semantics of `std::stoi` on the port substring: skip leading
whitespace, an optional sign, then a non-empty run of decimal digits whose
value must fit a 32-bit int.  `none` models the `std::invalid_argument`
(no digits) or `std::out_of_range` exception escaping the caller, which
`parseUrl` does not catch. -/
def stoi (s : List Char) : Option Int :=
  let s1 := s.dropWhile isStoiSpace
  let signAndRest : Int × List Char :=
    match s1 with
    | '-' :: r => (-1, r)
    | '+' :: r => (1, r)
    | _ => (1, s1)
  let ds := signAndRest.2.takeWhile Char.isDigit
  if ds = [] then none
  else
    let v : Int := signAndRest.1 * ((ds.foldl (fun a c => a * 10 + (c.toNat - 48)) 0 : Nat) : Int)
    if v < -(2 ^ 31) ∨ 2 ^ 31 - 1 < v then none else some v

/-- The body of `parseUrl` after the scheme prefix has been removed:
default port per scheme, split at the first slash, optional port override
through `std::stoi` with the `static_cast` to `uint16_t` taking the value
modulo 65536.  `none` models the uncaught `std::stoi` exception. -/
def parseAfterScheme (secure : Bool) (u : List Char) : Option ParsedUrl :=
  let defPort : Nat := if secure then 443 else 80
  let sp := splitAtSlash u
  match splitAtLastColon sp.1 with
  | some hp =>
    match stoi hp.2 with
    | none => none
    | some v => some ⟨secure, hp.1, (v.emod 65536).toNat, sp.2⟩
  | none => some ⟨secure, sp.1, defPort, sp.2⟩

/-- `parseUrl` (lines 162-201): recognizes exactly the wss and ws scheme
prefixes and otherwise returns the default-constructed (invalid) result. -/
def parseUrl (url : List Char) : Option ParsedUrl :=
  if url.take 6 = "wss://".toList then parseAfterScheme true (url.drop 6)
  else if url.take 5 = "ws://".toList then parseAfterScheme false (url.drop 5)
  else some ⟨false, [], 0, []⟩

/-! ## HeartbeatManager mutex discipline (message_queue.hpp lines 159-210) -/

/-- Lock and unlock operations on the single non-recursive
`HeartbeatManager::mutex_`, in the order a call performs them. -/
inductive MuOp where
  | lock
  | unlock
deriving DecidableEq, Repr

/-- The mutex operations of `HeartbeatManager::stop` (lines 159-173): a
braced `lock_guard` scope around the running-flag check, released before
the notify and join. -/
def stopMutexOps : List MuOp := [MuOp.lock, MuOp.unlock]

/-- The mutex operations of `HeartbeatManager::setMode` (lines 203-210): a
`lock_guard` covering the whole body; when the new mode is Disabled the
body calls `stop()` before the guard releases. -/
def setModeMutexOps (m : PingMode) : List MuOp :=
  [MuOp.lock] ++ (if m = PingMode.Disabled then stopMutexOps else []) ++ [MuOp.unlock]

/-- Executes a sequence of operations on one non-recursive mutex from one
thread, tracking whether the thread holds it.  Locking a mutex the thread
already holds is the undefined self-lock of `std::mutex`, which in
practice deadlocks: the run yields `none` and the call never returns. -/
def runMutexOps : List MuOp → Bool → Option Bool
  | [], held => some held
  | MuOp.lock :: rest, false => runMutexOps rest true
  | MuOp.lock :: _, true => none
  | MuOp.unlock :: rest, true => runMutexOps rest false
  | MuOp.unlock :: _, false => none

/-- The event list of a step result, regardless of whether the loop
continues. -/
def eventsOfStep : StepResult → List Event
  | StepResult.next _ evs _ => evs
  | StepResult.exit _ evs => evs

/-- The configuration of scenario S4: max-message-bytes 1024 and
auto-reconnect off. -/
def cfgSmall : WebSocketConfig := ⟨1024, false, 5, ⟨PingMode.Opcode, true⟩⟩

/-- No branch of the dispatch switch ever fires the error callback: the
only error the read path can raise is MessageTooLarge, before dispatch. -/
theorem dispatch_no_errorCb (cfg : WebSocketConfig) (jsonParses : List Nat → Bool)
    (st : ConnState) (f : Frame) (c : Nat) :
    Event.errorCb c ∉ (dispatchFrame cfg jsonParses st f).2.1 := by
  by_cases h1 : f.opcode = Opcode.Text ∨ f.opcode = Opcode.Binary
  · simp only [dispatchFrame, h1, if_true, handleMessage]
    split_ifs <;> simp
  by_cases h2 : f.opcode = Opcode.Close
  · simp [dispatchFrame, h1, h2, handleClose, Opcode.Text, Opcode.Binary, Opcode.Close]
  by_cases h3 : f.opcode = Opcode.Ping
  · simp only [dispatchFrame, h1, h2, h3, if_false, if_true, handlePing, Opcode.Text,
      Opcode.Binary, Opcode.Close, Opcode.Ping]
    norm_num
    exact ⟨fun _ _ => by simp, by simp⟩
  by_cases h4 : f.opcode = Opcode.Pong
  · simp [dispatchFrame, h1, h2, h3, h4, handlePong, Opcode.Text, Opcode.Binary,
      Opcode.Close, Opcode.Ping, Opcode.Pong]
  · simp [dispatchFrame, h1, h2, h3, h4]

/-- Claim C2 (code bug): on receipt of a Close frame carrying status 1000,
the handler extracts 1000 (first conjunct) and the loop exits with both
flags cleared, but the loop iteration produces no events at all: in
particular the Disconnected event with the extracted code is never
emitted, because handleClose stores the code into a local variable that is
then discarded and ioLoop skips handleDisconnect once the connected flag
is clear.  No reconnection is attempted. -/
theorem C2_close_frame_emits_no_disconnect :
    closeCodeOf [3, 232] = 1000 ∧
    ioStep defaultConfig (fun _ => false) ⟨true, true⟩ 0 [0x88, 0x02, 0x03, 0xE8] false =
      (⟨false, false⟩, [], 0, false) := by decide

/-- Claim C3 (counterexample): a Ping frame with FIN=0 — which the claim
says must fail the connection with InvalidFrame — is dispatched normally:
the loop continues and the emitted events are the auto-pong write and the
ping callback, with no InvalidFrame error. -/
theorem C3_counterexample :
    processFrameBytes defaultConfig (fun _ => false) ⟨true, true⟩ [0x09, 0x00] =
      StepResult.next ⟨true, true⟩ [Event.pongWrite [], Event.pingCallback []] [] ∧
    Event.errorCb ErrorCode.InvalidFrame ∉
      ([Event.pongWrite [], Event.pingCallback []] : List Event) := by decide

/-- Claim C3 (amended): the receiver performs no frame validation at all.
The read-dispatch path can only ever raise the MessageTooLarge error —
never InvalidFrame — and every frame whose opcode is outside the five
handled values is silently skipped with no event and no state change. -/
theorem C3_amended_no_invalid_frame (cfg : WebSocketConfig)
    (jsonParses : List Nat → Bool) (st : ConnState) (s : List Nat) :
    (∀ c, Event.errorCb c ∈ eventsOfStep (processFrameBytes cfg jsonParses st s) →
       c = ErrorCode.MessageTooLarge) ∧
    (∀ f rest, readFrame cfg.maxMessageSize s = DecodeResult.frame f rest →
       f.opcode ≠ Opcode.Text → f.opcode ≠ Opcode.Binary → f.opcode ≠ Opcode.Close →
       f.opcode ≠ Opcode.Ping → f.opcode ≠ Opcode.Pong →
       dispatchFrame cfg jsonParses st f = (st, [], true)) := by
  constructor
  · intro c hc
    unfold processFrameBytes at hc
    cases hread : readFrame cfg.maxMessageSize s with
    | frame f rest =>
      rcases hd : dispatchFrame cfg jsonParses st f with ⟨st1, evs, b⟩
      have hni := dispatch_no_errorCb cfg jsonParses st f c
      rw [hd] at hni
      simp only [hread, hd] at hc
      cases b <;> simp only [eventsOfStep] at hc <;> exact absurd hc hni
    | errTooLarge =>
      simp only [hread] at hc
      simp [eventsOfStep] at hc
      exact hc
    | errShortRead =>
      simp only [hread] at hc
      simp [eventsOfStep] at hc
  · intro f rest _ hT hB hC hP hPo
    simp [dispatchFrame, hT, hB, hC, hP, hPo]

/-- Claim C3 (amended) witness: a frame with reserved opcode 0xB decoded
from concrete bytes is skipped with no events. -/
theorem C3_amended_witness :
    dispatchFrame defaultConfig (fun _ => false) ⟨true, true⟩ ⟨false, 11, false, []⟩ =
      (⟨true, true⟩, [], true) :=
  (C3_amended_no_invalid_frame defaultConfig (fun _ => false) ⟨true, true⟩
      [0x0B, 0x00]).2 ⟨false, 11, false, []⟩ [] (by decide) (by decide) (by decide)
    (by decide) (by decide) (by decide)

/-- Claim C4 (counterexample): a Text frame with FIN=0 and payload "abc"
is delivered to the raw-message callback immediately — no fragment
assembly is opened — and a Continuation frame with FIN=1 delivers
nothing. -/
theorem C4_counterexample :
    processFrameBytes defaultConfig (fun _ => false) ⟨true, true⟩
        [0x01, 0x03, 97, 98, 99] =
      StepResult.next ⟨true, true⟩ [Event.rawMessage [97, 98, 99]] [] ∧
    processFrameBytes defaultConfig (fun _ => false) ⟨true, true⟩ [0x80, 0x00] =
      StepResult.next ⟨true, true⟩ [] [] := by decide

/-- Claim C4 (amended): there is no fragment assembly.  Every Text or
Binary frame is delivered immediately through handleMessage regardless of
its FIN bit, and every Continuation frame is silently discarded with no
event. -/
theorem C4_amended_no_fragmentation (cfg : WebSocketConfig)
    (jsonParses : List Nat → Bool) (st : ConnState) (fin masked : Bool) (p : List Nat) :
    (∀ o, o = Opcode.Text ∨ o = Opcode.Binary →
       dispatchFrame cfg jsonParses st ⟨fin, o, masked, p⟩ =
         (st, handleMessage jsonParses p, true) ∧
       Event.rawMessage p ∈ (dispatchFrame cfg jsonParses st ⟨fin, o, masked, p⟩).2.1) ∧
    dispatchFrame cfg jsonParses st ⟨fin, Opcode.Continuation, masked, p⟩ =
      (st, [], true) := by
  constructor
  · intro o ho
    constructor
    · simp [dispatchFrame, ho]
    · simp [dispatchFrame, ho, handleMessage]
  · simp [dispatchFrame, Opcode.Continuation, Opcode.Text, Opcode.Binary, Opcode.Close,
      Opcode.Ping, Opcode.Pong]

/-- Claim C4 (amended) witness: the FIN=0 Text frame "abc" is delivered
immediately. -/
theorem C4_amended_witness :
    dispatchFrame defaultConfig (fun _ => false) ⟨true, true⟩
        ⟨false, Opcode.Text, false, [97, 98, 99]⟩ =
      (⟨true, true⟩, handleMessage (fun _ => false) [97, 98, 99], true) :=
  ((C4_amended_no_fragmentation defaultConfig (fun _ => false) ⟨true, true⟩ false false
      [97, 98, 99]).1 Opcode.Text (Or.inl rfl)).1

/-- Claim C5 (counterexample): with max-message-bytes 1024 and no
reconnection, a frame declaring a 2048-byte payload makes the loop emit
the MessageTooLarge error and then a disconnect carrying 1006
(AbnormalClosure) — not 1009 (MessageTooBig) as the claim states. -/
theorem C5_counterexample :
    ioStep cfgSmall (fun _ => false) ⟨true, true⟩ 0 [0x82, 126, 8, 0] false =
      (⟨false, false⟩,
       [Event.errorCb ErrorCode.MessageTooLarge,
        Event.disconnectCb CloseCode.AbnormalClosure], 0, false) ∧
    CloseCode.AbnormalClosure ≠ CloseCode.MessageTooBig := by decide

/-- Claim C5 (amended): every inbound frame whose declared payload length
exceeds the configured maximum fails the connection with the
MessageTooLarge error and closes it; when auto-reconnect is off the
disconnect callback carries 1006 (AbnormalClosure), because
handleDisconnect always uses AbnormalClosure, never 1009. -/
theorem C5_amended_too_large_disconnects_1006 (cfg : WebSocketConfig)
    (jsonParses : List Nat → Bool) (st : ConnState) (a : Nat) (s : List Nat)
    (h : readFrame cfg.maxMessageSize s = DecodeResult.errTooLarge)
    (hconn : st.connected = true) (hnr : cfg.autoReconnect = false) :
    ioStep cfg jsonParses st a s false =
      (⟨false, false⟩,
       [Event.errorCb ErrorCode.MessageTooLarge,
        Event.disconnectCb CloseCode.AbnormalClosure], a, false) := by
  simp [ioStep, processFrameBytes, h, hconn, handleDisconnect, hnr]

/-- Claim C5 (amended) witness at the S4 sizes: limit 1024, declared
length 2048. -/
theorem C5_amended_witness :
    ioStep cfgSmall (fun _ => false) ⟨true, true⟩ 3 [0x82, 126, 8, 0] false =
      (⟨false, false⟩,
       [Event.errorCb ErrorCode.MessageTooLarge,
        Event.disconnectCb CloseCode.AbnormalClosure], 3, false) :=
  C5_amended_too_large_disconnects_1006 cfgSmall (fun _ => false) ⟨true, true⟩ 3
    [0x82, 126, 8, 0] (by decide) (by decide) (by decide)

/-- Claim C7 (counterexample): with auto-reconnect on and
maxReconnectAttempts 2, a single abnormal loss whose reconnection attempt
fails produces exactly one attempt (after a 1-second wait) and then the
1006 disconnect — not the two attempts the claim requires, because
handleDisconnect never retries after a failed connect. -/
theorem C7_counterexample :
    handleDisconnect true 2 0 false =
      ([Event.waitSeconds 1, Event.connectAttempt,
        Event.disconnectCb CloseCode.AbnormalClosure], 1, false) ∧
    ([Event.waitSeconds 1, Event.connectAttempt,
      Event.disconnectCb CloseCode.AbnormalClosure].count Event.connectAttempt = 1) ∧
    (1 : Nat) ≠ 2 := by decide

/-- Claim C7 (amended): after an abnormal loss with attempt counter a and
a below the maximum, exactly one reconnection attempt is made, preceded by
a wait of (a+1) seconds; when the attempt succeeds the counter resets to
zero, and when it fails the Disconnected event with 1006 follows
immediately with no further attempts. -/
theorem C7_amended_single_attempt (maxAttempts attempts : Nat) (outcome : Bool)
    (h : attempts < maxAttempts) :
    (outcome = true →
       handleDisconnect true maxAttempts attempts outcome =
         ([Event.waitSeconds (attempts + 1), Event.connectAttempt, Event.connectSuccess],
          0, true)) ∧
    (outcome = false →
       handleDisconnect true maxAttempts attempts outcome =
         ([Event.waitSeconds (attempts + 1), Event.connectAttempt,
           Event.disconnectCb CloseCode.AbnormalClosure], attempts + 1, false)) ∧
    (handleDisconnect true maxAttempts attempts outcome).1.count Event.connectAttempt = 1 := by
  cases outcome <;> simp [handleDisconnect, h]

/-- Claim C7 (amended) witness at the S6 parameters (max 2 attempts,
failed reconnect, counter 0). -/
theorem C7_amended_witness :
    handleDisconnect true 2 0 false =
      ([Event.waitSeconds 1, Event.connectAttempt,
        Event.disconnectCb CloseCode.AbnormalClosure], 1, false) :=
  (C7_amended_single_attempt 2 0 false (by decide)).2.1 rfl

/-- Claim C8 (code bug): setMode(Disabled) acquires the non-recursive
mutex for its whole body and then calls stop(), whose own lock_guard
re-locks the same mutex on the same thread: the run of its mutex
operations gets stuck, i.e. the call self-deadlocks and never returns
regardless of the worker state. -/
theorem C8_setMode_disabled_deadlocks :
    runMutexOps (setModeMutexOps PingMode.Disabled) false = none := by decide

/-- Claim C9: on receipt of a Ping frame with payload p while connected
and with auto-pong enabled, the dispatched event trace is exactly the Pong
write carrying p followed by the ping callback: the Pong with the same
payload goes through the send path before the onPing callback is
invoked. -/
theorem C9_autopong_before_ping_callback (cfg : WebSocketConfig)
    (jsonParses : List Nat → Bool) (st : ConnState) (fin masked : Bool) (p : List Nat)
    (hA : cfg.ping.autoPong = true) (hC : st.connected = true) :
    (dispatchFrame cfg jsonParses st ⟨fin, Opcode.Ping, masked, p⟩).2.1 =
      [Event.pongWrite p, Event.pingCallback p] := by
  simp [dispatchFrame, handlePing, hA, hC, Opcode.Ping, Opcode.Text, Opcode.Binary,
    Opcode.Close]

/-- Claim C9 witness: concrete Ping dispatch under the default
configuration. -/
theorem C9_witness :
    (dispatchFrame defaultConfig (fun _ => false) ⟨true, true⟩
        ⟨true, Opcode.Ping, false, [1, 2]⟩).2.1 =
      [Event.pongWrite [1, 2], Event.pingCallback [1, 2]] :=
  C9_autopong_before_ping_callback defaultConfig (fun _ => false) ⟨true, true⟩ true false
    [1, 2] rfl rfl

/-- Claim C10 (code bug): parseUrl does not return normally on every
input.  A non-numeric port makes the embedded std::stoi raise
invalid_argument and an over-range port raises out_of_range; parseUrl
catches neither, modelled here by the parse evaluating to none on both
failing inputs. -/
theorem C10_parseUrl_stoi_exception :
    parseUrl "ws://host:abc/".toList = none ∧
    parseUrl "ws://host:99999999999/".toList = none := by decide

/-! ## Codec support lemmas for the round-trip proof -/

theorem maskFrom_length (key : List Nat) (j : Nat) (P : List Nat) :
    (maskFrom key j P).length = P.length := by
  induction P generalizing j with
  | nil => rfl
  | cons b rest ih => simp [maskFrom, ih]

theorem maskBytes_length (key P : List Nat) : (maskBytes key P).length = P.length :=
  maskFrom_length key 0 P

theorem maskFrom_involutive (key : List Nat) (j : Nat) (P : List Nat) :
    maskFrom key j (maskFrom key j P) = P := by
  induction P generalizing j with
  | nil => rfl
  | cons b rest ih =>
    simp only [maskFrom, List.cons.injEq]
    exact ⟨by rw [Nat.xor_assoc, Nat.xor_self, Nat.xor_zero], ih (j + 1)⟩

theorem maskFrom_getD (key : List Nat) (P : List Nat) : ∀ (j i : Nat), i < P.length →
    (maskFrom key j P).getD i 0 = P.getD i 0 ^^^ key.getD ((j + i) % 4) 0 := by
  induction P with
  | nil => intro j i h; simp at h
  | cons b rest ih =>
    intro j i h
    cases i with
    | zero => simp [maskFrom]
    | succ i2 =>
      simp only [maskFrom, List.getD_cons_succ]
      rw [ih (j + 1) i2 (by simpa using h)]
      have : j + 1 + i2 = j + (i2 + 1) := by omega
      rw [this]

theorem lor_step_256 (acc b : Nat) (hb : b < 256) : (acc <<< 8) ||| b = acc * 256 + b := by
  have h := lor_shift_add 8 acc b (by norm_num; omega)
  norm_num at h
  exact h

theorem be2_roundtrip (n : Nat) (h : n ≤ 65535) :
    ((((n >>> 8) &&& 255) <<< 8) ||| (n &&& 255)) = n := by
  have h1 : n &&& 255 = n % 256 := and_255_eq_mod n
  have h2 : (n >>> 8) &&& 255 = n / 256 % 256 := by
    rw [Nat.shiftRight_eq_div_pow, and_255_eq_mod]
  rw [h1, h2, lor_step_256 _ _ (Nat.mod_lt _ (by norm_num))]
  omega

theorem be8_roundtrip (n : Nat) (h : n < 2 ^ 64) :
    (((List.range 8).map fun i => (n >>> ((7 - i) * 8)) &&& 0xFF).foldl
        (fun acc b => (acc <<< 8) ||| b) 0) = n := by
  have hr : List.range 8 = [0, 1, 2, 3, 4, 5, 6, 7] := by decide
  rw [hr]
  simp only [List.map_cons, List.map_nil, List.foldl_cons, List.foldl_nil,
    Nat.shiftRight_eq_div_pow, and_255_eq_mod]
  rw [lor_step_256 _ _ (Nat.mod_lt _ (by norm_num)),
    lor_step_256 _ _ (Nat.mod_lt _ (by norm_num)),
    lor_step_256 _ _ (Nat.mod_lt _ (by norm_num)),
    lor_step_256 _ _ (Nat.mod_lt _ (by norm_num)),
    lor_step_256 _ _ (Nat.mod_lt _ (by norm_num)),
    lor_step_256 _ _ (Nat.mod_lt _ (by norm_num)),
    lor_step_256 _ _ (Nat.mod_lt _ (by norm_num)),
    lor_step_256 _ _ (Nat.mod_lt _ (by norm_num))]
  norm_num
  norm_num at h
  omega

theorem take_mask (maskKey P : List Nat) (hk : maskKey.length = 4) :
    (maskKey ++ maskBytes maskKey P).take 4 = maskKey :=
  List.take_left' hk

theorem drop_mask (maskKey P : List Nat) (hk : maskKey.length = 4) :
    (maskKey ++ maskBytes maskKey P).drop 4 = maskBytes maskKey P :=
  List.drop_left' hk

theorem take_payload (maskKey P : List Nat) :
    (maskBytes maskKey P).take P.length = maskBytes maskKey P := by
  have h := List.take_length (maskBytes maskKey P)
  rw [maskBytes_length] at h
  exact h

theorem drop_payload (maskKey P : List Nat) :
    (maskBytes maskKey P).drop P.length = [] := by
  have h := List.drop_length (maskBytes maskKey P)
  rw [maskBytes_length] at h
  exact h

theorem readFrame_sendFrame (o maxSize : Nat) (P maskKey : List Nat)
    (ho : o = Opcode.Text ∨ o = Opcode.Binary) (hk : maskKey.length = 4)
    (hmax : P.length ≤ maxSize) (h64 : P.length < 2 ^ 64) :
    readFrame maxSize (sendFrame o P maskKey) = DecodeResult.frame ⟨true, o, true, P⟩ [] := by
  have hmk : maskBytes maskKey (maskBytes maskKey P) = P := maskFrom_involutive maskKey 0 P
  have hr1len : (4 : Nat) ≤ (maskKey ++ maskBytes maskKey P).length := by
    simp [hk, maskBytes_length]
  have hplen : P.length ≤ (maskBytes maskKey P).length := by
    rw [maskBytes_length]
  rcases Nat.lt_or_ge P.length 126 with hc1 | hc1
  · have hlen : lenBytesOf P.length = [128 + P.length] := by
      unfold lenBytesOf
      rw [if_pos hc1, lor_128 P.length (by omega)]
    have hsend : sendFrame o P maskKey =
        (0x80 ||| o) :: (128 + P.length) :: (maskKey ++ maskBytes maskKey P) := by
      unfold sendFrame
      rw [hlen]
      simp
    have hl0 : (128 + P.length) &&& 0x7F = P.length := by
      rw [and_127_eq_mod]
      omega
    have hext : readExtendedLen ((128 + P.length) &&& 0x7F)
        (maskKey ++ maskBytes maskKey P) =
        some (P.length, maskKey ++ maskBytes maskKey P) := by
      rw [hl0]
      unfold readExtendedLen
      rw [if_neg (by omega), if_neg (by omega)]
    have hm : ((128 + P.length) &&& 0x80 != 0) = true := by
      rw [show (0x80 : Nat) = 128 from rfl, and_128_of_lt P.length (by omega)]
      rfl
    rw [hsend]
    simp only [readFrame, hext, hm, if_neg (show ¬ P.length > maxSize by omega),
      if_pos hr1len, take_mask maskKey P hk, drop_mask maskKey P hk, if_pos hplen,
      take_payload, drop_payload, hmk, if_true]
    rcases ho with rfl | rfl <;> rfl
  rcases Nat.lt_or_ge 65535 P.length with hc2 | hc2
  · -- 64-bit extended length
    have hlen : lenBytesOf P.length = 255 ::
        ((List.range 8).map fun i => (P.length >>> ((7 - i) * 8)) &&& 0xFF) := by
      unfold lenBytesOf
      rw [if_neg (by omega), if_neg (by omega)]
      rfl
    have hsend : sendFrame o P maskKey =
        (0x80 ||| o) :: 255 ::
          (((List.range 8).map fun i => (P.length >>> ((7 - i) * 8)) &&& 0xFF) ++
            (maskKey ++ maskBytes maskKey P)) := by
      unfold sendFrame
      rw [hlen]
      simp
    have h8len : ((List.range 8).map fun i => (P.length >>> ((7 - i) * 8)) &&& 0xFF).length
        = 8 := by simp
    have hext : readExtendedLen ((255 : Nat) &&& 0x7F)
        (((List.range 8).map fun i => (P.length >>> ((7 - i) * 8)) &&& 0xFF) ++
          (maskKey ++ maskBytes maskKey P)) =
        some (P.length, maskKey ++ maskBytes maskKey P) := by
      rw [show ((255 : Nat) &&& 0x7F) = 127 from rfl]
      unfold readExtendedLen
      rw [if_neg (by omega), if_pos rfl]
      rw [if_pos (by rw [List.length_append, h8len]; omega)]
      rw [List.take_left' h8len, List.drop_left' h8len, be8_roundtrip P.length h64]
    rw [hsend]
    simp only [readFrame, hext, if_neg (show ¬ P.length > maxSize by omega),
      show ((255 : Nat) &&& 0x80 != 0) = true from rfl,
      if_pos hr1len, take_mask maskKey P hk, drop_mask maskKey P hk, if_pos hplen,
      take_payload, drop_payload, hmk, if_true]
    rcases ho with rfl | rfl <;> rfl
  · -- 16-bit extended length path of the case split
    have hlen : lenBytesOf P.length =
        [254, (P.length >>> 8) &&& 0xFF, P.length &&& 0xFF] := by
      unfold lenBytesOf
      rw [if_neg (by omega), if_pos (by omega)]
      rfl
    have hsend : sendFrame o P maskKey =
        (0x80 ||| o) :: 254 :: ((P.length >>> 8) &&& 0xFF) :: (P.length &&& 0xFF) ::
          (maskKey ++ maskBytes maskKey P) := by
      unfold sendFrame
      rw [hlen]
      simp
    have hext : readExtendedLen ((254 : Nat) &&& 0x7F)
        (((P.length >>> 8) &&& 0xFF) :: (P.length &&& 0xFF) ::
          (maskKey ++ maskBytes maskKey P)) =
        some (P.length, maskKey ++ maskBytes maskKey P) := by
      rw [show ((254 : Nat) &&& 0x7F) = 126 from rfl]
      unfold readExtendedLen
      rw [if_pos rfl]
      show some ((((P.length >>> 8) &&& 0xFF) <<< 8) ||| (P.length &&& 0xFF),
          maskKey ++ maskBytes maskKey P) = some (P.length, maskKey ++ maskBytes maskKey P)
      rw [be2_roundtrip P.length (by omega)]
    rw [hsend]
    simp only [readFrame, hext, if_neg (show ¬ P.length > maxSize by omega),
      show ((254 : Nat) &&& 0x80 != 0) = true from rfl,
      if_pos hr1len, take_mask maskKey P hk, drop_mask maskKey P hk, if_pos hplen,
      take_payload, drop_payload, hmk, if_true]
    rcases ho with rfl | rfl <;> rfl

theorem lenBytes_small (n : Nat) (h : n < 126) : lenBytesOf n = [128 + n] := by
  unfold lenBytesOf
  rw [if_pos h, lor_128 n (by omega)]

theorem lenBytes_mid (n : Nat) (h1 : 126 ≤ n) (h2 : n ≤ 65535) :
    lenBytesOf n = [254, n / 256, n % 256] := by
  unfold lenBytesOf
  rw [if_neg (by omega), if_pos (by omega), Nat.shiftRight_eq_div_pow,
    and_255_eq_mod, and_255_eq_mod]
  show [254, n / 256 % 256, n % 256] = [254, n / 256, n % 256]
  rw [Nat.mod_eq_of_lt (by omega : n / 256 < 256)]

theorem lenBytes_big (n : Nat) (h : 65535 < n) :
    lenBytesOf n = 255 :: ((List.range 8).map fun i => (n >>> ((7 - i) * 8)) &&& 0xFF) := by
  unfold lenBytesOf
  rw [if_neg (by omega), if_neg (by omega)]
  rfl

theorem be8_fold_mul (n : Nat) (h : n < 2 ^ 64) :
    (((List.range 8).map fun i => (n >>> ((7 - i) * 8)) &&& 0xFF).foldl
        (fun acc b => acc * 256 + b) 0) = n := by
  have hr : List.range 8 = [0, 1, 2, 3, 4, 5, 6, 7] := by decide
  rw [hr]
  simp only [List.map_cons, List.map_nil, List.foldl_cons, List.foldl_nil,
    Nat.shiftRight_eq_div_pow, and_255_eq_mod]
  norm_num
  norm_num at h
  omega

/-- Claim C1: for every payload P and opcode Text or Binary, decoding the
encoder output yields a frame with fin true, the same opcode and exactly
payload P; the encoding uses the correct length prefix for the payload
size (single byte below 126, the 126 marker plus a 16-bit big-endian
length up to 65535, the 127 marker plus an 8-byte big-endian length
otherwise), sets the mask bit on the length byte, contains exactly 4
mask-key bytes between the header and the payload, and XORing each masked
payload byte with the mask key at index i mod 4 recovers P. -/
theorem C1_encode_decode (o maxSize : Nat) (P maskKey : List Nat)
    (ho : o = Opcode.Text ∨ o = Opcode.Binary) (hk : maskKey.length = 4)
    (hmax : P.length ≤ maxSize) (h64 : P.length < 2 ^ 64) :
    readFrame maxSize (sendFrame o P maskKey) = DecodeResult.frame ⟨true, o, true, P⟩ [] ∧
    sendFrame o P maskKey =
      ((0x80 ||| o) :: lenBytesOf P.length) ++ maskKey ++ maskBytes maskKey P ∧
    (P.length < 126 → lenBytesOf P.length = [128 + P.length]) ∧
    (126 ≤ P.length → P.length ≤ 65535 →
      lenBytesOf P.length = [254, P.length / 256, P.length % 256]) ∧
    (65535 < P.length → ∃ bs, lenBytesOf P.length = 255 :: bs ∧ bs.length = 8 ∧
      bs.foldl (fun acc b => acc * 256 + b) 0 = P.length ∧ ∀ b ∈ bs, b < 256) ∧
    (lenBytesOf P.length).getD 0 0 &&& 0x80 = 0x80 ∧
    (sendFrame o P maskKey).length = 1 + (lenBytesOf P.length).length + 4 + P.length ∧
    (maskBytes maskKey P).length = P.length ∧
    (∀ i, i < P.length →
      (maskBytes maskKey P).getD i 0 ^^^ maskKey.getD (i % 4) 0 = P.getD i 0) := by
  refine ⟨readFrame_sendFrame o maxSize P maskKey ho hk hmax h64, rfl,
    fun h => lenBytes_small P.length h,
    fun h1 h2 => lenBytes_mid P.length h1 h2, ?_, ?_, ?_,
    maskBytes_length maskKey P, ?_⟩
  · intro hbig
    refine ⟨(List.range 8).map fun i => (P.length >>> ((7 - i) * 8)) &&& 0xFF,
      lenBytes_big P.length hbig, by simp, be8_fold_mul P.length h64, ?_⟩
    intro b hb
    simp only [List.mem_map] at hb
    obtain ⟨i, _, rfl⟩ := hb
    rw [and_255_eq_mod]
    exact Nat.mod_lt _ (by norm_num)
  · by_cases hc1 : P.length < 126
    · rw [lenBytes_small P.length hc1]
      show (128 + P.length) &&& 128 = 128
      exact and_128_of_lt P.length (by omega)
    · by_cases hc2 : P.length ≤ 65535
      · rw [lenBytes_mid P.length (by omega) hc2, List.getD_cons_zero]
        rfl
      · rw [lenBytes_big P.length (by omega), List.getD_cons_zero]
        rfl
  · simp only [sendFrame, List.length_append, List.length_cons, hk,
      maskBytes_length]
    omega
  · intro i hi
    have hp := maskFrom_getD maskKey P 0 i hi
    simp only [Nat.zero_add] at hp
    rw [show (maskBytes maskKey P).getD i 0 = P.getD i 0 ^^^ maskKey.getD (i % 4) 0 from hp,
      Nat.xor_assoc, Nat.xor_self, Nat.xor_zero]

/-- Claim C1 witness: the two-byte payload 104 105 on opcode Text with a
concrete mask key decodes back exactly. -/
theorem C1_witness :
    readFrame 1024 (sendFrame Opcode.Text [104, 105] [7, 1, 255, 2]) =
      DecodeResult.frame ⟨true, Opcode.Text, true, [104, 105]⟩ [] :=
  (C1_encode_decode Opcode.Text 1024 [104, 105] [7, 1, 255, 2] (Or.inl rfl) rfl
    (by decide) (by decide)).1

/-! ## URL parser support lemmas -/

theorem splitAtSlash_no_slash (l : List Char) (h : '/' ∉ l) :
    splitAtSlash l = (l, ['/']) := by
  induction l with
  | nil => rfl
  | cons c rest ih =>
    rw [List.mem_cons, not_or] at h
    have hc : ¬ c = '/' := fun e => h.1 e.symm
    simp [splitAtSlash, hc, ih h.2]

theorem splitAtSlash_append (hst p : List Char) (hh : '/' ∉ hst)
    (hp : p.head? = some '/') : splitAtSlash (hst ++ p) = (hst, p) := by
  induction hst with
  | nil =>
    cases p with
    | nil => simp at hp
    | cons c t =>
      have hc : c = '/' := by simpa using hp
      subst hc
      simp [splitAtSlash]
  | cons c rest ih =>
    rw [List.mem_cons, not_or] at hh
    have hc : ¬ c = '/' := fun e => hh.1 e.symm
    simp [splitAtSlash, hc, ih hh.2]

theorem splitAtLastColon_no_colon (l : List Char) (h : ':' ∉ l) :
    splitAtLastColon l = none := by
  induction l with
  | nil => rfl
  | cons c rest ih =>
    rw [List.mem_cons, not_or] at h
    have hc : ¬ c = ':' := fun e => h.1 e.symm
    simp [splitAtLastColon, ih h.2, hc]

theorem splitAtLastColon_append (hst t : List Char) (hh : ':' ∉ hst) (ht : ':' ∉ t) :
    splitAtLastColon (hst ++ ':' :: t) = some (hst, t) := by
  induction hst with
  | nil => simp [splitAtLastColon, splitAtLastColon_no_colon t ht]
  | cons c rest ih =>
    rw [List.mem_cons, not_or] at hh
    simp [splitAtLastColon, ih hh.2]

theorem parseAfterScheme_no_port (sec : Bool) (host path : List Char)
    (hc : ':' ∉ host) (hs : '/' ∉ host) (hp : path = [] ∨ path.head? = some '/') :
    parseAfterScheme sec (host ++ path) =
      some ⟨sec, host, if sec then 443 else 80, if path = [] then ['/'] else path⟩ := by
  unfold parseAfterScheme
  rcases hp with rfl | hp
  · rw [List.append_nil, splitAtSlash_no_slash host hs]
    simp [splitAtLastColon_no_colon host hc]
  · have hnil : path ≠ [] := by
      intro e
      rw [e] at hp
      simp at hp
    rw [splitAtSlash_append host path hs hp]
    simp [splitAtLastColon_no_colon host hc, hnil]

theorem parseAfterScheme_with_port (sec : Bool) (host portStr path : List Char) (v : Int)
    (hc : ':' ∉ host) (hs : '/' ∉ host) (hpc : ':' ∉ portStr) (hps : '/' ∉ portStr)
    (hp : path = [] ∨ path.head? = some '/') (hstoi : stoi portStr = some v) :
    parseAfterScheme sec (host ++ ':' :: (portStr ++ path)) =
      some ⟨sec, host, (v.emod 65536).toNat, if path = [] then ['/'] else path⟩ := by
  have hnos : '/' ∉ host ++ ':' :: portStr := by
    intro hm
    rcases List.mem_append.mp hm with hm | hm
    · exact hs hm
    rcases List.mem_cons.mp hm with hm | hm
    · exact absurd hm (by decide)
    · exact hps hm
  have hsl : splitAtSlash (host ++ ':' :: (portStr ++ path)) =
      (host ++ ':' :: portStr, if path = [] then ['/'] else path) := by
    rcases hp with rfl | hp
    · rw [List.append_nil]
      rw [show host ++ ':' :: portStr = (host ++ ':' :: portStr : List Char) from rfl]
      rw [if_pos rfl]
      exact splitAtSlash_no_slash _ hnos
    · have hnil : path ≠ [] := by
        intro e
        rw [e] at hp
        simp at hp
      rw [if_neg hnil]
      rw [show host ++ ':' :: (portStr ++ path) = (host ++ ':' :: portStr) ++ path by simp]
      exact splitAtSlash_append _ path hnos hp
  unfold parseAfterScheme
  rw [hsl]
  simp [splitAtLastColon_append host portStr hc hpc, hstoi]

theorem take_ws_ne_wss (x : List Char) :
    ("ws://".toList ++ x).take 6 ≠ "wss://".toList := by
  intro heq
  have h3 := congrArg (fun l => List.take 3 l) heq
  simp only [List.take_take] at h3
  rw [show min 3 6 = 3 from rfl, List.take_append_of_le_length (by decide)] at h3
  exact absurd h3 (by decide)

/-- Claim C6: the URL parser accepts exactly the schemes wss (secure,
default port 443) and ws (insecure, default port 80); any other scheme
yields the default-constructed invalid result.  After the scheme it splits
at the first slash into authority and path, defaulting the path to a
single slash; an explicit colon-port in the authority overrides the
default port (with the uint16 cast taking the stoi value modulo 65536);
and an empty host makes the parse invalid. -/
theorem C6_parseUrl_spec :
    (∀ url : List Char, url.take 6 ≠ "wss://".toList → url.take 5 ≠ "ws://".toList →
       parseUrl url = some ⟨false, [], 0, []⟩ ∧ urlValid ⟨false, [], 0, []⟩ = false) ∧
    (∀ host path : List Char, ':' ∉ host → '/' ∉ host →
       (path = [] ∨ path.head? = some '/') →
       parseUrl ("wss://".toList ++ (host ++ path)) =
         some ⟨true, host, 443, if path = [] then ['/'] else path⟩ ∧
       parseUrl ("ws://".toList ++ (host ++ path)) =
         some ⟨false, host, 80, if path = [] then ['/'] else path⟩) ∧
    (∀ host portStr path : List Char, ∀ v : Int,
       ':' ∉ host → '/' ∉ host → ':' ∉ portStr → '/' ∉ portStr →
       (path = [] ∨ path.head? = some '/') → stoi portStr = some v →
       parseUrl ("wss://".toList ++ (host ++ ':' :: (portStr ++ path))) =
         some ⟨true, host, (v.emod 65536).toNat, if path = [] then ['/'] else path⟩ ∧
       parseUrl ("ws://".toList ++ (host ++ ':' :: (portStr ++ path))) =
         some ⟨false, host, (v.emod 65536).toNat, if path = [] then ['/'] else path⟩) ∧
    (∀ url : List Char, ∀ r : ParsedUrl, parseUrl url = some r → r.host = [] →
       urlValid r = false) := by
  have htake6 : ∀ x : List Char, ("wss://".toList ++ x).take 6 = "wss://".toList :=
    fun x => List.take_left' (by decide)
  have hdrop6 : ∀ x : List Char, ("wss://".toList ++ x).drop 6 = x :=
    fun x => List.drop_left' (by decide)
  have htake5 : ∀ x : List Char, ("ws://".toList ++ x).take 5 = "ws://".toList :=
    fun x => List.take_left' (by decide)
  have hdrop5 : ∀ x : List Char, ("ws://".toList ++ x).drop 5 = x :=
    fun x => List.drop_left' (by decide)
  refine ⟨?_, ?_, ?_, ?_⟩
  · intro url h6 h5
    unfold parseUrl
    rw [if_neg h6, if_neg h5]
    exact ⟨rfl, rfl⟩
  · intro host path hc hs hp
    constructor
    · unfold parseUrl
      rw [if_pos (htake6 _), hdrop6]
      exact parseAfterScheme_no_port true host path hc hs hp
    · unfold parseUrl
      rw [if_neg (take_ws_ne_wss _), if_pos (htake5 _), hdrop5]
      exact parseAfterScheme_no_port false host path hc hs hp
  · intro host portStr path v hc hs hpc hps hp hstoi
    constructor
    · unfold parseUrl
      rw [if_pos (htake6 _), hdrop6]
      exact parseAfterScheme_with_port true host portStr path v hc hs hpc hps hp hstoi
    · unfold parseUrl
      rw [if_neg (take_ws_ne_wss _), if_pos (htake5 _), hdrop5]
      exact parseAfterScheme_with_port false host portStr path v hc hs hpc hps hp hstoi
  · intro url r _ hhost
    simp [urlValid, hhost]

/-- Claim C6 witness: a concrete secure URL with default port, and a
concrete insecure URL with an explicit port. -/
theorem C6_witness :
    parseUrl ("wss://".toList ++ ("example.com".toList ++ "/x".toList)) =
      some ⟨true, "example.com".toList, 443,
        if "/x".toList = ([] : List Char) then ['/'] else "/x".toList⟩ :=
  (C6_parseUrl_spec.2.1 "example.com".toList "/x".toList (by decide) (by decide)
    (Or.inr (by decide))).1

end GG
